/-
Verification of the AutoDeFi.AI dashboard sources against their
natural-language specification.

The repository is a TypeScript/Next.js frontend over a thin REST backend.
The definitions below are a shallow embedding of the client-side state
store (`src/frontend/src/lib/store.ts`), the API client
(`src/unnamed/part_004`, the axios API client module), the holdings
normalizer and safe formatters (`src/frontend/src/lib/normalizeHoldings.ts`),
the on-chain balance fetcher and its localStorage cache
(`src/frontend/src/lib/balanceFetcher.ts`), the MarketAlerts polling
component (`src/frontend/src/app/dashboard/components/MarketAlerts.tsx`),
and the vaults database schema
(`src/backend/migrations/create_vaults_tables.sql`).

JavaScript semantics that matter here are embedded explicitly:
  * `a || b` on strings falls back when `a` is the empty string
    (falsy), not only when it is null/undefined;
  * `!!s` is false exactly when the string is empty (or null);
  * `if (s)` skips the branch for the empty string;
  * `a ?? b` falls back only on null/undefined;
  * `Number(...)` can produce NaN and infinities, modelled by `JsNum`.
-/
import Mathlib

namespace AutoDefi

/-! ## JavaScript value model -/

/-- A JavaScript number: NaN, signed infinity, or a finite value
(modelled exactly as a rational). -/
inductive JsNum where
  | nan : JsNum
  | inf (neg : Bool) : JsNum
  | num (q : Rat) : JsNum
deriving DecidableEq, Repr

/-- JS `a || b` for `a : string | null` (`undefined` treated as absent):
falls back to `b` when `a` is null or the empty string (both falsy). -/
def jsOrString (a : Option String) (b : String) : String :=
  match a with
  | none => b
  | some s => if s = "" then b else s

/-- JS `!!s` for `s : string | null`: true iff non-null and non-empty. -/
def jsTruthyStr (a : Option String) : Bool :=
  match a with
  | none => false
  | some s => s ≠ ""

/-! ## Client store (`src/frontend/src/lib/store.ts`) -/

/-- `type WalletMode = 'demo' | 'wallet'`. -/
inductive WalletMode where
  | demo : WalletMode
  | wallet : WalletMode
deriving DecidableEq, Repr

/-- `riskPreference: 'low' | 'medium' | 'high'`. -/
inductive RiskPreference where
  | low : RiskPreference
  | medium : RiskPreference
  | high : RiskPreference
deriving DecidableEq, Repr

/-- `interface TokenBalances { [symbol: string]: number }`, modelled as an
association list from symbol to finite JS number. -/
def TokenBalances := List (String × Rat)
deriving DecidableEq

/-- `interface NetworkInfo { chainId: number; name: string }`. -/
structure NetworkInfo where
  chainId : Int
  name : String
deriving DecidableEq, Repr

/-- The data fields of the zustand `AppState` (actions and getters are
modelled as functions below). -/
structure AppState where
  mode : WalletMode
  walletAddress : Option String
  demoWallet : String
  riskPreference : RiskPreference
  tokenBalances : TokenBalances
  network : Option NetworkInfo
  isLoadingBalances : Bool
  hasHydrated : Bool
deriving DecidableEq

/-- `DEMO_WALLET` / the store's `demoWallet` initial value:
`'0x742d35Cc6634C0532925a3b844Bc9e7595f0bEb'`. -/
def DEMO_WALLET : String := "0x742d35Cc6634C0532925a3b844Bc9e7595f0bEb"

/-- The store's initial state from `create(...)` in `store.ts`. -/
def initialAppState : AppState :=
  { mode := .demo
    walletAddress := none
    demoWallet := DEMO_WALLET
    riskPreference := .medium
    tokenBalances := []
    network := none
    isLoadingBalances := false
    hasHydrated := false }

/-- `setMode`: sets `mode`; when switching to demo, clears balances and
resets the network to Ethereum Mainnet. -/
def setMode (s : AppState) (m : WalletMode) : AppState :=
  let s1 := { s with mode := m }
  match m with
  | .demo => { s1 with tokenBalances := ([] : TokenBalances),
                       network := some ⟨1, "Ethereum Mainnet"⟩ }
  | .wallet => s1

/-- `setWalletAddress`: stores the address, then `if (address)` switches
to wallet mode — a JS truthiness test, so the empty string does not
switch the mode. -/
def setWalletAddress (s : AppState) (address : Option String) : AppState :=
  let s1 := { s with walletAddress := address }
  if jsTruthyStr address then { s1 with mode := .wallet } else s1

/-- `clearWallet`. -/
def clearWallet (s : AppState) : AppState :=
  { s with mode := .demo, walletAddress := none,
           tokenBalances := ([] : TokenBalances), network := none,
           isLoadingBalances := false }

/-- `getActiveWallet()`:
`state.mode === 'demo' ? state.demoWallet : (state.walletAddress || state.demoWallet)`. -/
def getActiveWallet (s : AppState) : String :=
  match s.mode with
  | .demo => s.demoWallet
  | .wallet => jsOrString s.walletAddress s.demoWallet

/-- `isConnected()`:
`state.mode === 'wallet' ? !!state.walletAddress : true`. -/
def isConnected (s : AppState) : Bool :=
  match s.mode with
  | .wallet => jsTruthyStr s.walletAddress
  | .demo => true

/-- `isDemoMode()`. -/
def isDemoMode (s : AppState) : Bool :=
  s.mode = .demo

/-! ## API client (`src/unnamed/part_004`, the axios client module) -/

/-- An outbound HTTP GET request issued by the axios client, identified
by its path (relative to `API_BASE_URL`). -/
inductive ApiRequest where
  | get (path : String)
deriving DecidableEq, Repr

/-- `getPortfolio()` (client side): in demo mode it GETs
`'/api/portfolio/demo'`; in wallet mode it GETs
`` `/api/portfolio?wallet=${walletAddress || demoWallet}` ``. -/
def getPortfolioRequest (s : AppState) : ApiRequest :=
  match s.mode with
  | .demo => .get "/api/portfolio/demo"
  | .wallet => .get ("/api/portfolio?wallet=" ++ jsOrString s.walletAddress s.demoWallet)

/-! ## Holdings normalizer (`src/frontend/src/lib/normalizeHoldings.ts`) -/

/-- One element of the input array of `normalizeHoldings`, with every
field it reads; `none` models an absent (`undefined`) field. -/
structure RawHolding where
  id : Option Int := none
  protocol_name : Option String := none
  protocol : Option String := none
  provider : Option String := none
  token_symbol : Option String := none
  symbol : Option String := none
  amount : Option JsNum := none
  balance : Option JsNum := none
  apy : Option JsNum := none
  value_usd : Option JsNum := none
  updated_at : Option String := none
  last_updated : Option String := none
deriving DecidableEq, Repr

/-- `interface NormalizedHolding` from `normalizeHoldings.ts`. -/
structure NormalizedHolding where
  id : Int
  protocol_name : String
  token_symbol : String
  amount : JsNum
  apy : JsNum
  value_usd : JsNum
  last_updated : Option String
deriving DecidableEq, Repr

/-- JS `String.prototype.toUpperCase` on the characters of the string
(ASCII case mapping). -/
def jsToUpperCase (s : String) : String :=
  String.mk (s.data.map Char.toUpper)

/-- JS `a || b || null` on `string | undefined` operands: the first
truthy (non-empty) operand, else null. -/
def jsOrStrOpt (a b : Option String) : Option String :=
  if jsTruthyStr a then a else if jsTruthyStr b then b else none

/-- The argument of `normalizeHoldings(holdings: any[])`: an array of
records, or any non-array value. -/
inductive HoldingsInput where
  | arr (hs : List RawHolding)
  | notArray
deriving DecidableEq, Repr

/-- The body of the `holdings.map((h, index) => ...)` callback.
`Number` applied to a JS number is the identity, so
`Number(h.amount ?? h.balance ?? 0)` is the nullish-coalescing chain. -/
def normalizeHolding (index : Nat) (h : RawHolding) : NormalizedHolding :=
  { id := h.id.getD (index : Int)
    protocol_name :=
      jsOrString h.protocol_name (jsOrString h.protocol (jsOrString h.provider "Unknown"))
    token_symbol := jsToUpperCase (jsOrString h.token_symbol (jsOrString h.symbol ""))
    amount := (h.amount.orElse fun _ => h.balance).getD (.num 0)
    apy := h.apy.getD (.num 0)
    value_usd := h.value_usd.getD (.num 0)
    last_updated := jsOrStrOpt h.updated_at h.last_updated }

/-- `normalizeHoldings`: `[]` for a non-array input, otherwise the
index-aware map above. -/
def normalizeHoldings : HoldingsInput → List NormalizedHolding
  | .notArray => []
  | .arr hs => hs.mapIdx fun i h => normalizeHolding i h

/-- The spec's reading of the `protocol_name` rule — "the first *defined*
of protocol_name/protocol/provider and 'Unknown' otherwise" — as opposed
to the code's first-*truthy* `||` chain. Used only to compare the two. -/
def protocolNameFirstDefined (h : RawHolding) : String :=
  ((h.protocol_name.orElse fun _ => h.protocol).orElse fun _ => h.provider).getD "Unknown"

/-! ## JS values and number conversion (for the safe formatters) -/

/-- A JavaScript value as fed to the `safe*` formatters (`value: any`):
undefined, null, a number, or a string. -/
inductive JsVal where
  | undef : JsVal
  | null : JsVal
  | num (n : JsNum) : JsVal
  | str (s : String) : JsVal
deriving DecidableEq, Repr

/-- JS `a ?? b`: falls back only on null/undefined. -/
def jsNullish (a b : JsVal) : JsVal :=
  match a with
  | .undef => b
  | .null => b
  | v => v

/-- Value of a list of decimal digit characters, most significant first. -/
def digitsVal (cs : List Char) : Nat :=
  cs.foldl (fun n c => n * 10 + (c.toNat - 48)) 0

/-- Parse an unsigned decimal literal (`"12"`, `"12."`, `"12.5"`, `".5"`);
`none` when the characters are not of that shape. -/
def parseDecimal (cs : List Char) : Option Rat :=
  let ip := cs.takeWhile Char.isDigit
  let rest := cs.dropWhile Char.isDigit
  match rest with
  | [] => if ip.isEmpty then none else some (digitsVal ip : Rat)
  | '.' :: fp =>
      if fp.all Char.isDigit && !(ip.isEmpty && fp.isEmpty) then
        some ((digitsVal ip : Rat) + (digitsVal fp : Rat) / ((10 : Rat) ^ fp.length))
      else none
  | _ => none

/-- Strip leading and trailing whitespace (JS `StringToNumber` first
trims the string). -/
def jsTrim (s : String) : String :=
  String.mk
    (((s.data.dropWhile Char.isWhitespace).reverse.dropWhile
        Char.isWhitespace).reverse)

/-- JS `Number(string)` on the decimal fragment of the grammar:
whitespace-only is 0, signed `Infinity` literals, signed decimal
literals; anything else is NaN.  (Hex/exponent literals are outside what
this repository ever feeds in and are not modelled.) -/
def jsStringToNumber (s : String) : JsNum :=
  let t := jsTrim s
  if t = "" then .num 0
  else if t = "Infinity" || t = "+Infinity" then .inf false
  else if t = "-Infinity" then .inf true
  else
    match t.toList with
    | '-' :: cs => match parseDecimal cs with | some q => .num (-q) | none => .nan
    | '+' :: cs => match parseDecimal cs with | some q => .num q | none => .nan
    | cs => match parseDecimal cs with | some q => .num q | none => .nan

/-- JS `Number(v)` for the values above. -/
def jsNumber : JsVal → JsNum
  | .undef => .nan
  | .null => .num 0
  | .num n => n
  | .str s => jsStringToNumber s

/-! ## `Number.prototype.toFixed` (ECMA-262) -/

/-- The JS exception a formatter can raise (`toFixed` throws a
`RangeError` when its argument is outside `[0, 100]`). -/
inductive JsError where
  | rangeError : JsError
deriving DecidableEq, Repr

/-- The decimal digit character for `n % 10`. -/
def natDigitChar (n : Nat) : Char :=
  match n % 10 with
  | 0 => '0' | 1 => '1' | 2 => '2' | 3 => '3' | 4 => '4'
  | 5 => '5' | 6 => '6' | 7 => '7' | 8 => '8' | _ => '9'

/-- Decimal digits of `n`, least significant first (`[]` for 0). -/
def natDigitsLE (n : Nat) : List Char :=
  if h : n = 0 then []
  else natDigitChar n :: natDigitsLE (n / 10)
decreasing_by exact Nat.div_lt_self (Nat.pos_of_ne_zero h) (by omega)

/-- Decimal digit string of `n`, most significant first, `"0"` for 0. -/
def natDecimalDigits (n : Nat) : List Char :=
  if n = 0 then ['0'] else (natDigitsLE n).reverse

/-- A run of `d` zero characters (JS `'0'.repeat(d)`). -/
def zeros (d : Nat) : String :=
  String.mk (List.replicate d '0')

/-- The digit string (at least `d + 1` characters, zero-padded on the
left) of `q·10^d` rounded half-up — the digit pool `toFixedAbs` slices
into integer and fraction parts. -/
def toFixedPadded (q : Rat) (d : Nat) : List Char :=
  let ds := natDecimalDigits ((q * (10 : Rat) ^ d + 1/2).floor.toNat)
  List.replicate (d + 1 - ds.length) '0' ++ ds

/-- ECMA-262 `toFixed` on a non-negative finite value below 10^21:
round `q·10^d` half-up to an integer and typeset it with `d` fraction
digits. -/
def toFixedAbs (q : Rat) (d : Nat) : String :=
  let padded := toFixedPadded q d
  if d = 0 then String.mk padded
  else String.mk (padded.take (padded.length - d)) ++ "." ++
       String.mk (padded.drop (padded.length - d))

/-- ECMA-262 `ToString` for a value ≥ 10^21 (always an integer at that
magnitude): exponential notation such as `"1e+21"`. -/
def jsLargeToString (q : Rat) : String :=
  let ds := natDecimalDigits q.floor.toNat
  let mantissa :=
    match ds with
    | [] => "0"
    | c :: rest =>
        let rest2 := (rest.reverse.dropWhile (· = '0')).reverse
        if rest2.isEmpty then String.mk [c]
        else String.mk [c] ++ "." ++ String.mk rest2
  mantissa ++ "e+" ++ String.mk (natDecimalDigits (ds.length - 1))

/-- `Number.prototype.toFixed(d)` (ECMA-262 §Number.prototype.toFixed):
RangeError outside `[0, 100]`; `"NaN"` for NaN; `ToString` (with sign)
for infinities and magnitudes ≥ 10^21; fixed-point otherwise. -/
def toFixed (x : JsNum) (d : Nat) : Except JsError String :=
  if d > 100 then .error .rangeError
  else
    match x with
    | .nan => .ok "NaN"
    | .inf neg => .ok (if neg then "-Infinity" else "Infinity")
    | .num q =>
        if |q| ≥ (10 : Rat) ^ 21 then
          .ok ((if q < 0 then "-" else "") ++ jsLargeToString |q|)
        else
          .ok ((if q < 0 then "-" else "") ++ toFixedAbs |q| d)

/-! ## Safe formatters (`normalizeHoldings.ts`) -/

/-- `safeToFixed(value, decimals)`:
`Number(value ?? 0)`, the `'0.' + '0'.repeat(decimals)` NaN fallback,
else `num.toFixed(decimals)`. -/
def safeToFixed (value : JsVal) (decimals : Nat) : Except JsError String :=
  let num := jsNumber (jsNullish value (.num (.num 0)))
  if num = .nan then .ok ("0." ++ zeros decimals)
  else toFixed num decimals

/-- Digits of `n`, grouped by thousands with `','` (en-US). -/
def groupDigits (ds : List Char) : List Char :=
  (List.intercalate [','] (ds.reverse.toChunks 3)).reverse

/-- `Intl.NumberFormat('en-US', { style: 'currency', currency: 'USD',
minimumFractionDigits: 2, maximumFractionDigits: 2 }).format`:
`"$1,234.57"` with a leading sign; `"$∞"` for infinities. -/
def intlUsdFormat (n : JsNum) : String :=
  match n with
  | .nan => "$NaN"
  | .inf neg => (if neg then "-" else "") ++ "$∞"
  | .num q =>
      let cents : Nat := (|q| * 100 + 1/2).floor.toNat
      let ip := String.mk (groupDigits (natDecimalDigits (cents / 100)))
      let fp := String.mk [natDigitChar (cents % 100 / 10), natDigitChar (cents % 100)]
      (if q < 0 then "-" else "") ++ "$" ++ ip ++ "." ++ fp

/-- `safeCurrency(value)`: `'$0.00'` on NaN, else the Intl USD format. -/
def safeCurrency (value : JsVal) : String :=
  let num := jsNumber (jsNullish value (.num (.num 0)))
  if num = .nan then "$0.00" else intlUsdFormat num

/-- `safePercent(value, decimals)`: `'0.' + zeros + '%'` on NaN, else
`num.toFixed(decimals) + '%'`. -/
def safePercent (value : JsVal) (decimals : Nat) : Except JsError String :=
  let num := jsNumber (jsNullish value (.num (.num 0)))
  if num = .nan then .ok ("0." ++ zeros decimals ++ "%")
  else (toFixed num decimals).map (· ++ "%")

/-! ## On-chain balance fetcher (`src/frontend/src/lib/balanceFetcher.ts`) -/

/-- `MAINNET_TOKENS`. -/
def MAINNET_TOKENS : List (String × String) :=
  [("USDC", "0xA0b86991c6218b36c1d19D4a2e9Eb0cE3606eB48"),
   ("DAI", "0x6B175474E89094C44Da98b954EedeAC495271d0F"),
   ("WETH", "0xC02aaA39b223FE8D0A0e5C4F27eAD9083C756Cc2"),
   ("USDT", "0xdAC17F958D2ee523a2206206994597C13D831ec7"),
   ("AAVE", "0x7Fc66500c84A76Ad7e9c93437bFc5Ac33E2DDaE9")]

/-- The external world `getTokenBalances` reads from: whether
`window.ethereum` exists, whether constructing the `BrowserProvider`
succeeds (the only statement of the outer `try` with no inner handler),
and the outcomes of the individual RPC reads (already combined with
`formatEther`/`formatUnits` into a decimal amount). -/
structure Web3Env where
  providerAvailable : Bool
  providerCtorOk : Bool
  ethBalanceOf : String → Except Unit Rat
  tokenBalanceOf : String → String → Except Unit Rat

/-- JS object property assignment `m[k] = v` on an association list:
replace the binding if the key exists, append otherwise. -/
def insertBal : TokenBalances → String → Rat → TokenBalances
  | [], k, v => [(k, v)]
  | (k', v') :: rest, k, v =>
      if k' = k then (k, v) :: rest else (k', v') :: insertBal rest k v

/-- `getTokenBalances(address, tokens)`: `{}` when no provider; `{}` when
the outer `try` fails; otherwise the ETH balance (0 on its own failure)
followed by each token's balance, with a failed token reported as 0. -/
def getTokenBalances (env : Web3Env) (address : String)
    (tokens : List (String × String)) : TokenBalances :=
  if !env.providerAvailable then []
  else if !env.providerCtorOk then []
  else
    let withEth :=
      insertBal [] "ETH" (match env.ethBalanceOf address with
        | .ok v => v
        | .error _ => 0)
    let results := tokens.map fun p =>
      (p.1, match env.tokenBalanceOf p.2 address with
        | .ok v => v
        | .error _ => (0 : Rat))
    results.foldl (fun m p => insertBal m p.1 p.2) withEth

/-! ## localStorage balance cache (`balanceFetcher.ts`) -/

/-- JS `String.prototype.toLowerCase` on the characters of the string
(ASCII case mapping — all the code compares are hex addresses). -/
def jsToLowerCase (s : String) : String :=
  String.mk (s.data.map Char.toLower)

/-- `CACHE_DURATION = 5 * 60 * 1000`. -/
def CACHE_DURATION : Nat := 5 * 60 * 1000

/-- `interface BalanceCache`. -/
structure BalanceCacheEntry where
  address : String
  balances : TokenBalances
  timestamp : Nat
deriving DecidableEq

/-- The content of `localStorage[BALANCE_CACHE_KEY]`: absent, present but
not parsable as a `BalanceCache` (so `JSON.parse`/field access throws
into the `catch`), or a parsed entry. -/
inductive CacheCell where
  | absent : CacheCell
  | garbage : CacheCell
  | entry (e : BalanceCacheEntry) : CacheCell
deriving DecidableEq

/-- `cacheBalances(address, balances)`: overwrite the cell with the
entry stamped `Date.now()`. -/
def cacheBalances (now : Nat) (address : String) (balances : TokenBalances)
    (_cell : CacheCell) : CacheCell :=
  .entry ⟨address, balances, now⟩

/-- `getCachedBalances(address)`: the stored balances when the stored
address matches case-insensitively and `Date.now() - timestamp <
CACHE_DURATION`; null otherwise (also on absence or a parse error). -/
def getCachedBalances (now : Nat) (cell : CacheCell) (address : String) :
    Option TokenBalances :=
  match cell with
  | .absent => none
  | .garbage => none
  | .entry e =>
      if jsToLowerCase e.address = jsToLowerCase address ∧
         (now : Int) - (e.timestamp : Int) < (CACHE_DURATION : Int)
      then some e.balances
      else none

/-! ## MarketAlerts polling component
(`src/frontend/src/app/dashboard/components/MarketAlerts.tsx`) -/

/-- The SWR options the component passes. -/
structure SWRConfig where
  refreshInterval : Nat
  revalidateOnFocus : Bool
  revalidateOnReconnect : Bool
deriving DecidableEq, Repr

/-- The options literal in the `useSWR` call of `MarketAlerts`. -/
def marketAlertsSWRConfig : SWRConfig :=
  { refreshInterval := 120000
    revalidateOnFocus := false
    revalidateOnReconnect := true }

/-- The fetched URL: `` `${API_URL}/api/alerts` ``. -/
def marketAlertsUrl (apiUrl : String) : String :=
  apiUrl ++ "/api/alerts"

/-- `severity: 'high' | 'medium' | 'low'`. -/
inductive Severity where
  | high : Severity
  | medium : Severity
  | low : Severity
deriving DecidableEq, Repr

/-- `type: 'APY' | 'TVL'`. -/
inductive AlertKind where
  | APY : AlertKind
  | TVL : AlertKind
deriving DecidableEq, Repr

/-- `interface Alert` from `MarketAlerts.tsx`. -/
structure Alert where
  protocol : String
  change : Rat
  kind : AlertKind
  message : String
  ai_reaction : String
  severity : Severity
  current_apy : Rat
  tvl : Rat
  timestamp : String
deriving DecidableEq, Repr

/-- `interface AlertsResponse`. -/
structure AlertsResponse where
  alerts : List Alert
  count : Nat
  last_updated : String
deriving DecidableEq, Repr

/-- Events the component reacts to: the SWR refresh timer firing, the
window regaining focus, the network reconnecting, and a fetch response
arriving. -/
inductive MAEvent where
  | tick : MAEvent
  | focusRegained : MAEvent
  | reconnect : MAEvent
  | response (r : AlertsResponse) : MAEvent
deriving DecidableEq, Repr

/-- The component's state: SWR's `data` plus the `visibleAlerts`
`useState`. -/
structure MAState where
  data : Option AlertsResponse
  visibleAlerts : List Alert
deriving DecidableEq, Repr

/-- Initial render: no data, `useState<Alert[]>([])`. -/
def maInitialState : MAState :=
  { data := none, visibleAlerts := [] }

/-- Whether SWR issues a re-fetch of `/api/alerts` on an event, per the
options the component passes (a zero `refreshInterval` would disable the
timer; a response never triggers another fetch). -/
def swrFetchTriggered (c : SWRConfig) : MAEvent → Bool
  | .tick => c.refreshInterval != 0
  | .focusRegained => c.revalidateOnFocus
  | .reconnect => c.revalidateOnReconnect
  | .response _ => false

/-- State update per event: a response sets `data` and the `useEffect`
on `[data]` copies `data.alerts` into `visibleAlerts`; every other event
leaves the state unchanged (the component computes no alerts itself). -/
def maStep (s : MAState) : MAEvent → MAState
  | .response r => { data := some r, visibleAlerts := r.alerts }
  | _ => s

/-- Whether an event is the arrival of a fetch response. -/
def MAEvent.isResp : MAEvent → Bool
  | .response _ => true
  | _ => false

/-! ## Vaults schema (`src/backend/migrations/create_vaults_tables.sql`) -/

/-- One element of the `allocations` JSONB array:
`{"protocol_name": ..., "percent": ...}`. -/
structure VaultAllocItem where
  protocol_name : String
  percent : Rat
deriving DecidableEq, Repr

/-- A row of `vaults`.  `name` and `allocations` are `NOT NULL`, hence
non-optional; the nullable columns are `Option`s.  (`id SERIAL`,
timestamps omitted from the model.) -/
structure VaultRow where
  id : Nat
  name : String
  description : Option String
  risk_level : Option String
  expected_apy : Option Rat
  allocations : List VaultAllocItem
  ai_description : Option String
deriving DecidableEq, Repr

/-- A row of `vault_ai_logs` (`event_type` is `NOT NULL`). -/
structure VaultAiLogRow where
  id : Nat
  vault_id : Option Nat
  event_type : String
  payload : Option String
  summary : Option String
  confidence : Option Rat
  ai_model : Option String
deriving DecidableEq, Repr

/-- The two tables the vault feature writes. -/
structure VaultsDb where
  vaults : List VaultRow
  logs : List VaultAiLogRow
deriving DecidableEq, Repr

/-- A constraint violation raised by an INSERT. -/
inductive SqlError where
  | notNullViolation (column : String) : SqlError
deriving DecidableEq, Repr

/-- Next `SERIAL` value for `vaults.id`. -/
def nextVaultId (db : VaultsDb) : Nat :=
  (db.vaults.map (·.id)).foldl max 0 + 1

/-- Next `SERIAL` value for `vault_ai_logs.id`. -/
def nextLogId (db : VaultsDb) : Nat :=
  (db.logs.map (·.id)).foldl max 0 + 1

/-- `INSERT INTO vaults`: enforces the DDL's `NOT NULL` on `name` and
`allocations`; an omitted (`none`) `risk_level`/`expected_apy` takes the
column DEFAULT. -/
def insertVault (db : VaultsDb) (name : Option String)
    (allocations : Option (List VaultAllocItem))
    (description risk_level ai_description : Option String)
    (expected_apy : Option Rat) : Except SqlError VaultsDb :=
  match name with
  | none => .error (.notNullViolation "name")
  | some n =>
      match allocations with
      | none => .error (.notNullViolation "allocations")
      | some a =>
          .ok { db with vaults := db.vaults ++
            [{ id := nextVaultId db
               name := n
               description := description
               risk_level := risk_level.orElse fun _ => some "medium"
               expected_apy := expected_apy.orElse fun _ => some 0
               allocations := a
               ai_description := ai_description }] }

/-- The parsed JSON the LLM returns for a vault regeneration, plus its
raw payload and log metadata. -/
structure LlmVaultOutput where
  allocations : List VaultAllocItem
  ai_description : String
  expected_apy : Rat
  raw : String
  summary : Option String
  confidence : Option Rat
  model : Option String
deriving DecidableEq, Repr

/-- Modelled from the spec: the backend route that regenerates a vault is
not among the repository sources (only its SQL migration is).  Per the
spec a vault is "a named, static set of protocol/percentage allocations
stored as a database row, periodically regenerated by calling an
external LLM and persisting its JSON output": regeneration updates the
existing `vaults` row's `allocations`, `ai_description` and
`expected_apy` in place and appends a `vault_ai_logs` row. -/
def regenerateVault (db : VaultsDb) (vid : Nat) (out : LlmVaultOutput) : VaultsDb :=
  { vaults := db.vaults.map fun r =>
      if r.id = vid then
        { r with allocations := out.allocations
                 ai_description := some out.ai_description
                 expected_apy := some out.expected_apy }
      else r
    logs := db.logs ++
      [{ id := nextLogId db
         vault_id := some vid
         event_type := "update"
         payload := some out.raw
         summary := out.summary
         confidence := out.confidence
         ai_model := out.model }] }

/-! ## Auxiliary definitions for the theorems -/

/-- The first non-empty string among the optional operands, with a
default — the meaning of a JS `||` chain over `string | undefined`
operands. -/
def firstNonEmpty (l : List (Option String)) (dflt : String) : String :=
  match l with
  | [] => dflt
  | o :: rest =>
      match o with
      | some s => if s = "" then firstNonEmpty rest dflt else s
      | none => firstNonEmpty rest dflt

/-- View an optional numeric field as a JS value (`none` = undefined). -/
def jsValOfNum : Option JsNum → JsVal
  | none => .undef
  | some n => .num n

/-- The shape "a decimal string with exactly `d` fraction digits":
everything after the final fraction point is `d` digit characters. -/
def hasFracDigits (s : String) (d : Nat) : Prop :=
  ∃ a b : List Char,
    s.data = a ++ '.' :: b ∧ b.length = d ∧ ∀ c ∈ b, c.isDigit = true

/-- A store state in wallet mode whose `walletAddress` is the empty
string — non-null, but falsy in JavaScript. -/
def emptyAddrState : AppState :=
  { initialAppState with mode := .wallet, walletAddress := some "" }

/-- A holding whose `protocol_name` is defined but empty while
`protocol` is `"Aave"`. -/
def c3CexHolding : RawHolding :=
  { protocol_name := some "", protocol := some "Aave" }

/-- A holding exercising the non-obvious branches: `id` present and 0,
an empty `token_symbol` falling through to `symbol`, and `amount`
absent falling through to `balance`. -/
def c3SampleHolding : RawHolding :=
  { id := some 0, token_symbol := some "", symbol := some "eth",
    balance := some (.num 2) }

/-- A concrete one-vault database (mirroring the migration's sample
vault) for exercising the C5 theorem. -/
def c5SampleDb : VaultsDb :=
  ⟨[⟨1, "AI Balanced Yield v1", none, some "medium", some (435/100),
     [⟨"lido", 50⟩], none⟩], []⟩

/-- A concrete parsed LLM output for exercising the C5 theorem. -/
def c5SampleOut : LlmVaultOutput :=
  ⟨[⟨"curve", 100⟩], "rebalanced", 5, "{}", none, none, none⟩

/-- The vault's row after the sample regeneration. -/
def c5SampleRow : VaultRow :=
  ⟨1, "AI Balanced Yield v1", none, some "medium", some 5,
   [⟨"curve", 100⟩], some "rebalanced"⟩

/-- A concrete environment where the DAI contract read fails and every
other read succeeds. -/
def c6SampleEnv : Web3Env :=
  { providerAvailable := true
    providerCtorOk := true
    ethBalanceOf := fun _ => .ok 1
    tokenBalanceOf := fun caddr _ =>
      if caddr = "0x6B175474E89094C44Da98b954EedeAC495271d0F" then .error ()
      else .ok 5 }

/-! ## Theorems -/

/-- C1, counterexample: with `walletAddress = some ""` (non-null) in
wallet mode, `getActiveWallet()` does not return `walletAddress` — the
JS `||` falls back to the demo wallet on the empty string. -/
theorem c1_counterexample :
    emptyAddrState.walletAddress = some "" ∧
    emptyAddrState.mode = .wallet ∧
    getActiveWallet emptyAddrState ≠ "" := by
  decide

/-- C1 (amended): in demo mode `getActiveWallet()` returns the
`demoWallet` placeholder regardless of `walletAddress`; in wallet mode
it returns `walletAddress` when that is non-null and **non-empty**, and
falls back to the placeholder when it is null **or empty**; with the
store's fixed placeholder it always returns a non-empty address. -/
theorem c1_active_wallet (s : AppState) :
    (s.mode = .demo → getActiveWallet s = s.demoWallet) ∧
    (s.mode = .wallet → ∀ a : String, s.walletAddress = some a → a ≠ "" →
        getActiveWallet s = a) ∧
    (s.mode = .wallet → (s.walletAddress = none ∨ s.walletAddress = some "") →
        getActiveWallet s = s.demoWallet) ∧
    (s.demoWallet = DEMO_WALLET → getActiveWallet s ≠ "") := by
  obtain ⟨m, wa, dw, rp, tb, nw, lb, hh⟩ := s
  refine ⟨?_, ?_, ?_, ?_⟩
  · rintro rfl
    rfl
  · rintro rfl a rfl ha
    simp [getActiveWallet, jsOrString, ha]
  · rintro rfl (rfl | rfl) <;> simp [getActiveWallet, jsOrString]
  · rintro rfl
    cases m with
    | demo => simp [getActiveWallet]; decide
    | wallet =>
        cases wa with
        | none => simp [getActiveWallet, jsOrString]; decide
        | some a =>
            by_cases ha : a = ""
            · simp [getActiveWallet, jsOrString, ha]
              decide
            · simp [getActiveWallet, jsOrString, ha]

/-- C1, witness: the amended theorem applied at a concrete wallet-mode
state with a non-empty address. -/
theorem c1_active_wallet_witness :
    getActiveWallet
      { initialAppState with mode := .wallet, walletAddress := some "0xabc" } =
      "0xabc" :=
  (c1_active_wallet _).2.1 rfl "0xabc" rfl (by decide)

/-- C2, counterexample: in wallet mode with the non-null empty-string
address, `getPortfolio()` does not request `'/api/portfolio?wallet='`
(the address the claim prescribes); the `||` substitutes the demo
wallet. -/
theorem c2_counterexample :
    emptyAddrState.walletAddress = some "" ∧
    emptyAddrState.mode = .wallet ∧
    getPortfolioRequest emptyAddrState ≠ .get "/api/portfolio?wallet=" := by
  decide

/-- C2 (amended): in demo mode `getPortfolio()` always requests
`'/api/portfolio/demo'`; in wallet mode it requests
`'/api/portfolio?wallet=<addr>'` where `<addr>` is `walletAddress` when
non-null and **non-empty**, and the `demoWallet` placeholder when null
**or empty**. -/
theorem c2_get_portfolio (s : AppState) :
    (s.mode = .demo → getPortfolioRequest s = .get "/api/portfolio/demo") ∧
    (s.mode = .wallet → ∀ a : String, s.walletAddress = some a → a ≠ "" →
        getPortfolioRequest s = .get ("/api/portfolio?wallet=" ++ a)) ∧
    (s.mode = .wallet → (s.walletAddress = none ∨ s.walletAddress = some "") →
        getPortfolioRequest s = .get ("/api/portfolio?wallet=" ++ s.demoWallet)) := by
  obtain ⟨m, wa, dw, rp, tb, nw, lb, hh⟩ := s
  refine ⟨?_, ?_, ?_⟩
  · rintro rfl
    rfl
  · rintro rfl a rfl ha
    simp [getPortfolioRequest, jsOrString, ha]
  · rintro rfl (rfl | rfl) <;> simp [getPortfolioRequest, jsOrString]

/-- C2, witness: the amended theorem applied at the initial (demo)
state and at a concrete wallet-mode state. -/
theorem c2_get_portfolio_witness :
    getPortfolioRequest initialAppState = .get "/api/portfolio/demo" ∧
    getPortfolioRequest
      { initialAppState with mode := .wallet, walletAddress := some "0xabc" } =
      .get "/api/portfolio?wallet=0xabc" :=
  ⟨(c2_get_portfolio initialAppState).1 rfl,
   (c2_get_portfolio _).2.1 rfl "0xabc" rfl (by decide)⟩

/-- C4, counterexample: with the non-null empty-string address in
wallet mode, `isConnected()` is false — `!!''` is false in JS. -/
theorem c4_counterexample :
    emptyAddrState.walletAddress ≠ none ∧
    emptyAddrState.mode = .wallet ∧
    isConnected emptyAddrState = false := by
  decide

/-- C4 (amended): in demo mode `isConnected()` is true even with a null
`walletAddress`; in wallet mode it is true iff `walletAddress` is
non-null and **non-empty**. -/
theorem c4_is_connected (s : AppState) :
    (s.mode = .demo → isConnected s = true) ∧
    (s.mode = .wallet →
        (isConnected s = true ↔ ∃ a : String, s.walletAddress = some a ∧ a ≠ "")) := by
  obtain ⟨m, wa, dw, rp, tb, nw, lb, hh⟩ := s
  refine ⟨?_, ?_⟩
  · rintro rfl
    rfl
  · rintro rfl
    cases wa with
    | none => simp [isConnected, jsTruthyStr]
    | some a => simp [isConnected, jsTruthyStr]

/-- C4, witness: the amended theorem applied at the initial demo state
(null address, still connected) and at a concrete wallet-mode state. -/
theorem c4_is_connected_witness :
    isConnected initialAppState = true ∧
    isConnected
      { initialAppState with mode := .wallet, walletAddress := some "0xabc" } =
      true :=
  ⟨(c4_is_connected initialAppState).1 rfl,
   ((c4_is_connected _).2 rfl).mpr ⟨"0xabc", rfl, by decide⟩⟩

/-- C9, counterexample: `setWalletAddress('')` stores the non-null
empty address but does not switch the mode to wallet — `if (address)`
is a truthiness test. -/
theorem c9_counterexample :
    (setWalletAddress initialAppState (some "")).walletAddress = some "" ∧
    (setWalletAddress initialAppState (some "")).mode ≠ .wallet := by
  decide

/-- C9 (amended): `setWalletAddress(a)` for non-null **non-empty** `a`
sets `walletAddress` to `a` and `mode` to wallet;
`setWalletAddress(null)` (and the empty string) sets `walletAddress`
and leaves `mode` unchanged; in all cases every other field
(`demoWallet`, `riskPreference`, `tokenBalances`, `network`,
`isLoadingBalances`, hydration flag) is unchanged. -/
theorem c9_set_wallet_address (s : AppState) (a : String) (o : Option String)
    (ha : a ≠ "") :
    ((setWalletAddress s (some a)).walletAddress = some a ∧
     (setWalletAddress s (some a)).mode = .wallet) ∧
    ((setWalletAddress s none).walletAddress = none ∧
     (setWalletAddress s none).mode = s.mode) ∧
    ((setWalletAddress s (some "")).walletAddress = some "" ∧
     (setWalletAddress s (some "")).mode = s.mode) ∧
    ((setWalletAddress s o).demoWallet = s.demoWallet ∧
     (setWalletAddress s o).riskPreference = s.riskPreference ∧
     (setWalletAddress s o).tokenBalances = s.tokenBalances ∧
     (setWalletAddress s o).network = s.network ∧
     (setWalletAddress s o).isLoadingBalances = s.isLoadingBalances ∧
     (setWalletAddress s o).hasHydrated = s.hasHydrated) := by
  refine ⟨⟨?_, ?_⟩, ⟨?_, ?_⟩, ⟨?_, ?_⟩, ?_, ?_, ?_, ?_, ?_, ?_⟩ <;>
    simp [setWalletAddress, jsTruthyStr, ha] <;>
    cases o <;> simp [setWalletAddress, jsTruthyStr] <;> split <;> rfl

/-- C9, witness: the amended theorem applied at the initial state with
the address `"0xabc"`. -/
theorem c9_set_wallet_address_witness :
    ("0xabc" ≠ "") ∧
    (setWalletAddress initialAppState (some "0xabc")).mode = .wallet ∧
    (setWalletAddress initialAppState (some "")).mode = initialAppState.mode ∧
    (setWalletAddress initialAppState (some "0xabc")).tokenBalances =
      initialAppState.tokenBalances :=
  ⟨by decide,
   (c9_set_wallet_address initialAppState "0xabc" (some "0xabc") (by decide)).1.2,
   (c9_set_wallet_address initialAppState "0xabc" (some "0xabc") (by decide)).2.2.1.2,
   (c9_set_wallet_address initialAppState "0xabc" (some "0xabc") (by decide)).2.2.2.2.2.1⟩

/-- C8: the localStorage balance cache round-trips: after
`cacheBalances(a, b)` at time `t`, `getCachedBalances(a2)` at time `t'`
returns `b` exactly when the addresses agree case-insensitively and
fewer than `CACHE_DURATION = 300000` ms have elapsed; it returns null
when the addresses differ, when at least 5 minutes have elapsed, and on
an absent or unparsable cache entry. -/
theorem c8_cache_round_trip (t t' : Nat) (a a2 : String) (b : TokenBalances)
    (cell : CacheCell) :
    CACHE_DURATION = 300000 ∧
    (jsToLowerCase a2 = jsToLowerCase a → (t' : Int) - (t : Int) < 300000 →
        getCachedBalances t' (cacheBalances t a b cell) a2 = some b) ∧
    (jsToLowerCase a2 ≠ jsToLowerCase a →
        getCachedBalances t' (cacheBalances t a b cell) a2 = none) ∧
    ((t' : Int) - (t : Int) ≥ 300000 →
        getCachedBalances t' (cacheBalances t a b cell) a2 = none) ∧
    getCachedBalances t' .absent a2 = none ∧
    getCachedBalances t' .garbage a2 = none := by
  refine ⟨rfl, ?_, ?_, ?_, rfl, rfl⟩
  · intro haddr ht
    simp only [cacheBalances, getCachedBalances]
    rw [if_pos]
    exact ⟨haddr.symm, by simpa [CACHE_DURATION] using ht⟩
  · intro haddr
    simp only [cacheBalances, getCachedBalances]
    rw [if_neg]
    rintro ⟨h1, -⟩
    exact haddr h1.symm
  · intro ht
    simp only [cacheBalances, getCachedBalances]
    rw [if_neg]
    rintro ⟨-, h2⟩
    simp only [CACHE_DURATION] at h2
    omega
/-- C8, witness: a concrete round-trip — cache at t=500 under a
mixed-case address, read back at t=1000 under the lower-case address. -/
theorem c8_cache_round_trip_witness :
    (jsToLowerCase "0xabc" = jsToLowerCase "0xAbC") ∧
    getCachedBalances 1000
      (cacheBalances 500 "0xAbC" [("ETH", 2)] .absent) "0xabc" =
      some [("ETH", 2)] :=
  ⟨by decide,
   (c8_cache_round_trip 500 1000 "0xAbC" "0xabc" [("ETH", 2)] .absent).2.1
     (by decide) (by decide)⟩

/-- C7: the market-alert display is pure polling: the component's SWR
options re-fetch `/api/alerts` on a 120000 ms interval and not on
window focus, and the displayed alert list changes only when a fetch
response arrives, in which case it becomes exactly the fetched
`alerts` array — the component never computes alerts itself. -/
theorem c7_market_alerts (s : MAState) (e : MAEvent) (r : AlertsResponse)
    (hne : e.isResp = false) :
    marketAlertsSWRConfig.refreshInterval = 120000 ∧
    marketAlertsSWRConfig.revalidateOnFocus = false ∧
    swrFetchTriggered marketAlertsSWRConfig .focusRegained = false ∧
    swrFetchTriggered marketAlertsSWRConfig .tick = true ∧
    marketAlertsUrl "" = "/api/alerts" ∧
    maStep s e = s ∧
    (maStep s (.response r)).visibleAlerts = r.alerts := by
  refine ⟨rfl, rfl, rfl, rfl, rfl, ?_, rfl⟩
  cases e with
  | response r0 => simp [MAEvent.isResp] at hne
  | tick => rfl
  | focusRegained => rfl
  | reconnect => rfl

/-- C7, witness: the theorem applied to the initial component state, a
timer tick, and a concrete one-alert response. -/
theorem c7_market_alerts_witness :
    (MAEvent.tick.isResp = false) ∧
    maStep maInitialState .tick = maInitialState ∧
    (maStep maInitialState
        (.response ⟨[⟨"aave-v3", 2, .APY, "m", "r", .high, 5, 1000000, "ts"⟩], 1,
          "ts"⟩)).visibleAlerts =
      [⟨"aave-v3", 2, .APY, "m", "r", .high, 5, 1000000, "ts"⟩] :=
  ⟨by decide,
   (c7_market_alerts maInitialState .tick ⟨[], 0, ""⟩ (by decide)).2.2.2.2.2.1,
   (c7_market_alerts maInitialState .tick
       ⟨[⟨"aave-v3", 2, .APY, "m", "r", .high, 5, 1000000, "ts"⟩], 1, "ts"⟩
       (by decide)).2.2.2.2.2.2⟩

/-- C5: a vault lives in a single `vaults` row whose `name` and
`allocations` are NOT NULL (an INSERT succeeds exactly when both are
supplied), and regeneration persists the LLM output by updating that
row's `allocations`, `ai_description` and `expected_apy` and appending
one `vault_ai_logs` row — the `vaults` table keeps the same rows (same
count, same ids), never gaining a second row for the vault. -/
theorem c5_vault_single_row (db : VaultsDb) (vid : Nat) (out : LlmVaultOutput)
    (r : VaultRow) (name : Option String)
    (allocs : Option (List VaultAllocItem))
    (descr rl ad : Option String) (apy : Option Rat) :
    ((regenerateVault db vid out).vaults.length = db.vaults.length) ∧
    ((regenerateVault db vid out).vaults.map (·.id) = db.vaults.map (·.id)) ∧
    (r ∈ (regenerateVault db vid out).vaults → r.id = vid →
        r.allocations = out.allocations ∧
        r.ai_description = some out.ai_description ∧
        r.expected_apy = some out.expected_apy) ∧
    ((regenerateVault db vid out).logs =
        db.logs ++
          [{ id := nextLogId db, vault_id := some vid, event_type := "update",
             payload := some out.raw, summary := out.summary,
             confidence := out.confidence, ai_model := out.model }]) ∧
    ((insertVault db name allocs descr rl ad apy).isOk = true ↔
        (name.isSome = true ∧ allocs.isSome = true)) := by
  refine ⟨?_, ?_, ?_, rfl, ?_⟩
  · simp [regenerateVault]
  · simp only [regenerateVault, List.map_map]
    apply List.map_congr_left
    intro x _
    by_cases hx : x.id = vid <;> simp [hx]
  · intro hr hid
    simp only [regenerateVault, List.mem_map] at hr
    obtain ⟨x, -, hx⟩ := hr
    by_cases hxe : x.id = vid
    · simp only [hxe, if_pos rfl] at hx
      subst hx
      exact ⟨rfl, rfl, rfl⟩
    · rw [if_neg hxe] at hx
      subst hx
      exact absurd hid hxe
  · cases name <;> cases allocs <;> simp [insertVault, Except.isOk, Except.toBool]

/-- C5, witness: a concrete one-vault database regenerated with a
concrete LLM output: the row count is unchanged and the vault's row
carries the new allocations; an INSERT with both NOT NULL columns
succeeds. -/
theorem c5_vault_single_row_witness :
    (regenerateVault c5SampleDb 1 c5SampleOut).vaults.length =
      c5SampleDb.vaults.length ∧
    c5SampleRow.allocations = c5SampleOut.allocations ∧
    (insertVault c5SampleDb (some "V") (some []) none none none none).isOk =
      true := by
  have h := c5_vault_single_row c5SampleDb 1 c5SampleOut c5SampleRow
    (some "V") (some []) none none none none
  refine ⟨h.1, ?_, h.2.2.2.2.mpr ⟨rfl, rfl⟩⟩
  have hrow := h.2.2.1 (by decide) (by decide)
  exact hrow.1

/-- Looking up the key just assigned yields the assigned value. -/
theorem lookup_insertBal_self (m : TokenBalances) (k : String) (v : Rat) :
    (insertBal m k v).lookup k = some v := by
  induction m with
  | nil => simp [insertBal, List.lookup]
  | cons p rest ih =>
      obtain ⟨k', v'⟩ := p
      by_cases h : k' = k
      · subst h
        simp [insertBal, List.lookup]
      · have hb : (k == k') = false := beq_eq_false_iff_ne.mpr (Ne.symm h)
        simp [insertBal, h, List.lookup, hb, ih]

/-- Assigning one key leaves lookups of other keys unchanged. -/
theorem lookup_insertBal_of_ne (m : TokenBalances) (k k' : String) (v : Rat)
    (h : k' ≠ k) : (insertBal m k v).lookup k' = m.lookup k' := by
  have hb : (k' == k) = false := beq_eq_false_iff_ne.mpr h
  induction m with
  | nil => simp [insertBal, List.lookup, hb]
  | cons p rest ih =>
      obtain ⟨k0, v0⟩ := p
      by_cases h0 : k0 = k
      · subst h0
        simp [insertBal, List.lookup, hb]
      · have hb0 : (k0 == k) = false := beq_eq_false_iff_ne.mpr h0
        simp [insertBal, hb0, h0, List.lookup, ih]

/-- Folding assignments whose keys avoid `k` leaves `k`'s lookup
unchanged. -/
theorem lookup_foldl_insertBal_of_not_mem (l : List (String × Rat))
    (m : TokenBalances) (k : String) (hk : k ∉ l.map Prod.fst) :
    (l.foldl (fun m p => insertBal m p.1 p.2) m).lookup k = m.lookup k := by
  induction l generalizing m with
  | nil => rfl
  | cons p rest ih =>
      simp only [List.map_cons, List.mem_cons, not_or] at hk
      simp only [List.foldl_cons]
      rw [ih _ hk.2, lookup_insertBal_of_ne _ _ _ _ hk.1]

/-- With pairwise-distinct keys, folding the assignments makes each
pair's value retrievable. -/
theorem lookup_foldl_insertBal_mem (l : List (String × Rat))
    (m : TokenBalances) (k : String) (v : Rat)
    (hnd : (l.map Prod.fst).Nodup) (hmem : (k, v) ∈ l) :
    (l.foldl (fun m p => insertBal m p.1 p.2) m).lookup k = some v := by
  induction l generalizing m with
  | nil => cases hmem
  | cons p rest ih =>
      simp only [List.map_cons, List.nodup_cons] at hnd
      simp only [List.foldl_cons]
      rcases List.mem_cons.mp hmem with heq | hmem'
      · obtain rfl : p = (k, v) := heq.symm ▸ rfl
        rw [lookup_foldl_insertBal_of_not_mem rest _ k hnd.1]
        exact lookup_insertBal_self m k v
      · exact ih (insertBal m p.1 p.2) hnd.2 hmem'

/-- C6: the balance fetcher degrades instead of throwing: no provider →
empty map; outer failure (provider construction) → empty map; otherwise
every requested token is present in the result, with a failed
individual lookup reported as balance 0 (token keys are distinct, as JS
object keys are). -/
theorem c6_get_token_balances (env : Web3Env) (address : String)
    (tokens : List (String × String)) (hnd : (tokens.map Prod.fst).Nodup) :
    (env.providerAvailable = false → getTokenBalances env address tokens = []) ∧
    (env.providerCtorOk = false → getTokenBalances env address tokens = []) ∧
    (env.providerAvailable = true → env.providerCtorOk = true →
      ∀ sym caddr, (sym, caddr) ∈ tokens →
        (getTokenBalances env address tokens).lookup sym =
          some (match env.tokenBalanceOf caddr address with
                | .ok v => v
                | .error _ => 0)) := by
  refine ⟨?_, ?_, ?_⟩
  · intro h
    simp [getTokenBalances, h]
  · intro h
    cases hpa : env.providerAvailable <;> simp [getTokenBalances, h, hpa]
  · intro hpa hok sym caddr hmem
    simp only [getTokenBalances, hpa, hok, Bool.not_true, Bool.false_eq_true,
      if_false]
    apply lookup_foldl_insertBal_mem
    · simpa [List.map_map, Function.comp] using hnd
    · exact List.mem_map_of_mem _ hmem

/-- C6, witness: with the real `MAINNET_TOKENS` list and the sample
environment, the failed DAI read is reported as 0 while USDC is still
returned. -/
theorem c6_get_token_balances_witness :
    ((MAINNET_TOKENS.map Prod.fst).Nodup) ∧
    (getTokenBalances c6SampleEnv "0xabc" MAINNET_TOKENS).lookup "DAI" =
      some 0 ∧
    (getTokenBalances c6SampleEnv "0xabc" MAINNET_TOKENS).lookup "USDC" =
      some 5 := by
  refine ⟨by decide, ?_, ?_⟩
  · have h := (c6_get_token_balances c6SampleEnv "0xabc" MAINNET_TOKENS
      (by decide)).2.2 rfl rfl "DAI" "0x6B175474E89094C44Da98b954EedeAC495271d0F"
      (by decide)
    simpa [c6SampleEnv] using h
  · have h := (c6_get_token_balances c6SampleEnv "0xabc" MAINNET_TOKENS
      (by decide)).2.2 rfl rfl "USDC" "0xA0b86991c6218b36c1d19D4a2e9Eb0cE3606eB48"
      (by decide)
    simpa [c6SampleEnv] using h

/-- Peeling one operand off a `||` chain. -/
theorem firstNonEmpty_cons (o : Option String) (l : List (Option String))
    (d : String) :
    firstNonEmpty (o :: l) d = jsOrString o (firstNonEmpty l d) := by
  cases o <;> simp [firstNonEmpty, jsOrString]

/-- C3, counterexample: on a holding with a defined-but-empty
`protocol_name`, the code's `||` chain skips it and yields `"Aave"`,
not the first *defined* field (`""`) the claim prescribes. -/
theorem c3_counterexample :
    c3CexHolding.protocol_name = some "" ∧
    (normalizeHoldings (.arr [c3CexHolding])).map (·.protocol_name) = ["Aave"] ∧
    protocolNameFirstDefined c3CexHolding = "" := by
  decide

/-- C3 (amended): `normalizeHoldings` maps a length-preserving
normalizer over an array (empty list for a non-array input), where
`protocol_name` is the first **non-empty** of
`protocol_name`/`protocol`/`provider` (else `'Unknown'`),
`token_symbol` is the upper-cased first **non-empty** of
`token_symbol`/`symbol` (else `''`), `amount` is
`Number(amount ?? balance ?? 0)`, and `id` is the element's `id` when
defined (including 0) and otherwise its index. -/
theorem c3_normalize_holdings (hs : List RawHolding) (h : RawHolding)
    (i : Nat) (v : Int) (hi : i < hs.length)
    (hi2 : i < (normalizeHoldings (.arr hs)).length) :
    (normalizeHoldings (.arr hs)).length = hs.length ∧
    normalizeHoldings .notArray = [] ∧
    (normalizeHoldings (.arr hs)).get ⟨i, hi2⟩ =
      normalizeHolding i (hs.get ⟨i, hi⟩) ∧
    (normalizeHolding i h).protocol_name =
      firstNonEmpty [h.protocol_name, h.protocol, h.provider] "Unknown" ∧
    (normalizeHolding i h).token_symbol =
      jsToUpperCase (firstNonEmpty [h.token_symbol, h.symbol] "") ∧
    (normalizeHolding i h).amount =
      jsNumber (jsNullish (jsValOfNum h.amount)
        (jsNullish (jsValOfNum h.balance) (.num (.num 0)))) ∧
    (h.id = none → (normalizeHolding i h).id = i) ∧
    (h.id = some v → (normalizeHolding i h).id = v) := by
  refine ⟨?_, rfl, ?_, ?_, ?_, ?_, ?_, ?_⟩
  · simp [normalizeHoldings]
  · exact List.get_mapIdx hs (fun i h => normalizeHolding i h) i hi hi2
  · rw [firstNonEmpty_cons, firstNonEmpty_cons, firstNonEmpty_cons]
    rfl
  · rw [firstNonEmpty_cons, firstNonEmpty_cons]
    rfl
  · cases ha : h.amount <;> cases hb : h.balance <;>
      simp [normalizeHolding, jsValOfNum, jsNullish, jsNumber, ha, hb,
        Option.orElse]
  · intro hid
    simp [normalizeHolding, hid]
  · intro hid
    simp [normalizeHolding, hid]

/-- C3, witness: the amended theorem applied to a concrete one-element
array and the sample holding. -/
theorem c3_normalize_holdings_witness :
    (normalizeHoldings (.arr [c3SampleHolding])).length = 1 ∧
    (normalizeHolding 0 c3SampleHolding).token_symbol =
      jsToUpperCase (firstNonEmpty [some "", some "eth"] "") ∧
    (normalizeHolding 0 c3SampleHolding).id = 0 := by
  have h := c3_normalize_holdings [c3SampleHolding] c3SampleHolding 0 0
    (by decide) (by decide)
  exact ⟨h.1, h.2.2.2.2.1, h.2.2.2.2.2.2.2 rfl⟩

/-- `natDigitChar` always produces a digit character. -/
theorem natDigitChar_isDigit (n : Nat) : (natDigitChar n).isDigit = true := by
  unfold natDigitChar
  generalize n % 10 = m
  rcases m with _ | _ | _ | _ | _ | _ | _ | _ | _ | m <;> rfl

/-- Every character of `natDigitsLE` is a digit. -/
theorem natDigitsLE_isDigit (n : Nat) :
    ∀ c ∈ natDigitsLE n, c.isDigit = true := by
  induction n using Nat.strong_induction_on with
  | _ n ih =>
      intro c hc
      rw [natDigitsLE] at hc
      split at hc
      · simp at hc
      · rename_i h
        rcases List.mem_cons.mp hc with rfl | h2
        · exact natDigitChar_isDigit n
        · exact ih (n / 10) (Nat.div_lt_self (Nat.pos_of_ne_zero h) (by omega))
            c h2

/-- Every character of `natDecimalDigits` is a digit. -/
theorem natDecimalDigits_isDigit (n : Nat) :
    ∀ c ∈ natDecimalDigits n, c.isDigit = true := by
  intro c hc
  unfold natDecimalDigits at hc
  split at hc
  · simp at hc
    subst hc
    rfl
  · exact natDigitsLE_isDigit n c (List.mem_reverse.mp hc)

/-- The padded digit pool is at least `d + 1` characters long. -/
theorem toFixedPadded_length (q : Rat) (d : Nat) :
    d + 1 ≤ (toFixedPadded q d).length := by
  simp only [toFixedPadded, List.length_append, List.length_replicate]
  omega

/-- Every character of the padded digit pool is a digit. -/
theorem toFixedPadded_isDigit (q : Rat) (d : Nat) :
    ∀ c ∈ toFixedPadded q d, c.isDigit = true := by
  intro c hc
  simp only [toFixedPadded] at hc
  rcases List.mem_append.mp hc with h1 | h1
  · rw [List.eq_of_mem_replicate h1]
    rfl
  · exact natDecimalDigits_isDigit _ c h1

/-- For positive `d`, `toFixedAbs` has exactly `d` fraction digits. -/
theorem toFixedAbs_hasFrac (q : Rat) (d : Nat) (hd : 0 < d) :
    hasFracDigits (toFixedAbs q d) d := by
  have hlen := toFixedPadded_length q d
  simp only [toFixedAbs]
  rw [if_neg (by omega : ¬ d = 0)]
  refine ⟨(toFixedPadded q d).take ((toFixedPadded q d).length - d),
          (toFixedPadded q d).drop ((toFixedPadded q d).length - d), ?_, ?_, ?_⟩
  · simp
  · simp only [List.length_drop]
    omega
  · intro c hc
    exact toFixedPadded_isDigit q d c (List.drop_subset _ _ hc)

/-- For `d = 0`, `toFixedAbs` contains no fraction point. -/
theorem toFixedAbs_zero_noDot (q : Rat) :
    ('.' : Char) ∉ (toFixedAbs q 0).data := by
  simp only [toFixedAbs]
  rw [if_pos trivial]
  intro hmem
  exact absurd (toFixedPadded_isDigit q 0 '.' hmem) (by decide)

/-- `toFixed` on a finite value, with the RangeError branch discharged. -/
theorem toFixed_num (q : Rat) (d : Nat) (hd : d ≤ 100) :
    toFixed (.num q) d =
      if |q| ≥ (10 : Rat) ^ 21 then
        .ok ((if q < 0 then "-" else "") ++ jsLargeToString |q|)
      else
        .ok ((if q < 0 then "-" else "") ++ toFixedAbs |q| d) := by
  unfold toFixed
  rw [if_neg (by omega : ¬ d > 100)]

/-- `toFixed` never throws when its argument is within `[0, 100]`. -/
theorem toFixed_isOk (x : JsNum) (d : Nat) (hd : d ≤ 100) :
    ∃ s, toFixed x d = .ok s := by
  cases x with
  | nan => exact ⟨"NaN", by unfold toFixed; rw [if_neg (by omega : ¬ d > 100)]⟩
  | inf neg =>
      exact ⟨if neg then "-Infinity" else "Infinity",
        by unfold toFixed; rw [if_neg (by omega : ¬ d > 100)]⟩
  | num q =>
      by_cases h : |q| ≥ (10 : Rat) ^ 21
      · exact ⟨_, by rw [toFixed_num q d hd, if_pos h]⟩
      · exact ⟨_, by rw [toFixed_num q d hd, if_neg h]⟩

/-- C10, counterexample: `safeToFixed(Infinity, 2)` returns
`"Infinity"`, which has no fraction digits at all, and
`safeToFixed(1, 101)` throws the `toFixed` RangeError — the claim's
"for every value v and natural number d" fails. -/
theorem c10_counterexample :
    (safeToFixed (.num (.inf false)) 2 = .ok "Infinity" ∧
     ¬ hasFracDigits "Infinity" 2) ∧
    safeToFixed (.num (.num 1)) 101 = .error .rangeError := by
  refine ⟨⟨by rfl, ?_⟩, by rfl⟩
  rintro ⟨a, b, hab, -, -⟩
  have hmem : ('.' : Char) ∈ "Infinity".data := by
    rw [hab]
    exact List.mem_append.mpr (Or.inr (List.mem_cons_self _ _))
  exact absurd hmem (by decide)

/-- C10 (amended): the safe formatters are total for `d ≤ 100` (the
range `toFixed` accepts): they return a value, with the claimed NaN
fallbacks (`'0.' + zeros`, `'$0.00'`, `'0.' + zeros + '%'`); and for a
**finite** number of magnitude below 10^21 the `safeToFixed` output is
a decimal string with exactly `d` fraction digits (no fraction point at
all when `d = 0`). -/
theorem c10_safe_formatters (v : JsVal) (d : Nat) (q : Rat) (hd : d ≤ 100) :
    (∃ s, safeToFixed v d = .ok s) ∧
    (∃ s, safePercent v d = .ok s) ∧
    (jsNumber (jsNullish v (.num (.num 0))) = .nan →
        safeToFixed v d = .ok ("0." ++ zeros d) ∧
        safeCurrency v = "$0.00" ∧
        safePercent v d = .ok ("0." ++ zeros d ++ "%")) ∧
    (jsNumber (jsNullish v (.num (.num 0))) = .num q → |q| < (10 : Rat) ^ 21 →
        ∃ s, safeToFixed v d = .ok s ∧
          (0 < d → hasFracDigits s d) ∧
          (d = 0 → ('.' : Char) ∉ s.data)) := by
  refine ⟨?_, ?_, ?_, ?_⟩
  · by_cases hnan : jsNumber (jsNullish v (.num (.num 0))) = .nan
    · exact ⟨"0." ++ zeros d, by simp [safeToFixed, hnan]⟩
    · obtain ⟨s, hs⟩ := toFixed_isOk (jsNumber (jsNullish v (.num (.num 0)))) d hd
      exact ⟨s, by simp [safeToFixed, hnan, hs]⟩
  · by_cases hnan : jsNumber (jsNullish v (.num (.num 0))) = .nan
    · exact ⟨"0." ++ zeros d ++ "%", by simp [safePercent, hnan]⟩
    · obtain ⟨s, hs⟩ := toFixed_isOk (jsNumber (jsNullish v (.num (.num 0)))) d hd
      exact ⟨s ++ "%", by simp [safePercent, hnan, hs, Except.map]⟩
  · intro hnan
    exact ⟨by simp [safeToFixed, hnan], by simp [safeCurrency, hnan],
           by simp [safePercent, hnan]⟩
  · intro hq hlt
    refine ⟨(if q < 0 then "-" else "") ++ toFixedAbs |q| d, ?_, ?_, ?_⟩
    · simp only [safeToFixed, hq]
      rw [if_neg (by simp)]
      rw [toFixed_num q d hd, if_neg (not_le.mpr hlt)]
    · intro hdpos
      obtain ⟨a, b, hab, hlen, hdig⟩ := toFixedAbs_hasFrac |q| d hdpos
      refine ⟨(if q < 0 then "-" else "").data ++ a, b, ?_, hlen, hdig⟩
      rw [String.data_append, hab, List.append_assoc]
    · intro hd0
      subst hd0
      rw [String.data_append]
      intro hmem
      rcases List.mem_append.mp hmem with h1 | h1
      · by_cases hq0 : q < 0
        · rw [if_pos hq0] at h1
          exact absurd h1 (by decide)
        · rw [if_neg hq0] at h1
          exact absurd h1 (by decide)
      · exact toFixedAbs_zero_noDot |q| h1

/-- C10, witness: the amended theorem applied at `v = "abc"` (a
non-numeric string, so `Number` gives NaN) and `d = 2`. -/
theorem c10_safe_formatters_witness :
    (2 ≤ 100) ∧
    safeToFixed (.str "abc") 2 = .ok ("0." ++ zeros 2) ∧
    safeCurrency (.str "abc") = "$0.00" ∧
    safePercent (.str "abc") 2 = .ok ("0." ++ zeros 2 ++ "%") :=
  ⟨by omega,
   ((c10_safe_formatters (.str "abc") 2 0 (by omega)).2.2.1 (by decide)).1,
   ((c10_safe_formatters (.str "abc") 2 0 (by omega)).2.2.1 (by decide)).2.1,
   ((c10_safe_formatters (.str "abc") 2 0 (by omega)).2.2.1 (by decide)).2.2⟩

end AutoDefi
